import Mathlib

/-!
Verification of the BreakingBadV2 trading bot against its design spec.

The Python source is shallowly embedded:
* Python dict values (`None`, `int`, `str`) become the inductive `PyVal`;
  the registry dicts (`MessageHandler.open_positions['digital_options']`,
  `MessageHandler.position_info`) become association lists with
  Python `dict.get` / `in` semantics.
* The polling loops of `TradeManager.wait_for_order_confirmation` and
  `TradeManager.get_trade_outcome` are discretized: one list element / one
  snapshot function argument per poll tick (0.1 s resp. 0.5 s), the loop
  deadline becoming the number of polls.
* `signal_parser.py` string pipeline is embedded over `List Char`,
  including the regex substitutions and scans it performs.
-/

namespace BreakingBad

/-- Python values that can appear in `open_positions['digital_options']`:
`None`, an `int` order id, or a `str` rejection message. -/
inductive PyVal where
  | none : PyVal
  | int : ℤ → PyVal
  | str : String → PyVal
deriving DecidableEq, Repr

/-- A Python dict keyed by request-id strings, as an association list. -/
abbrev PyDict := List (String × PyVal)

/-- `d.get(k)` with default `None` (Python returns `None` for a missing key). -/
def dictGet : PyDict → String → PyVal
  | [], _ => .none
  | (k, v) :: rest, key => if k = key then v else dictGet rest key

/-- `d[k] = v`: overwrite an existing binding for `k` or append a new one. -/
def dictInsert : PyDict → String → PyVal → PyDict
  | [], k, v => [(k, v)]
  | (k', v') :: rest, k, v =>
    if k' = k then (k, v) :: rest else (k', v') :: dictInsert rest k v

/-- `k in d`: Python dict membership. -/
def dictHasKey : PyDict → String → Bool
  | [], _ => false
  | (k', _) :: rest, k => if k' = k then true else dictHasKey rest k

/-- `MessageHandler._handle_digital_option_placed`: if the payload's `id`
is not `None` store it under the request id, otherwise store the payload's
`message` (itself possibly absent, i.e. `None`). -/
def handle_digital_option_placed (d : PyDict) (request_id : String)
    (msgId : Option ℤ) (msgMessage : Option String) : PyDict :=
  match msgId with
  | some n => dictInsert d request_id (.int n)
  | none =>
    dictInsert d request_id
      (match msgMessage with
       | some s => .str s
       | none => .none)

/-- One iteration body of `TradeManager.wait_for_order_confirmation`:
`result = open_positions['digital_options'].get(request_id)`; `None` means
keep polling, an `int` means success with the order id, anything else is a
failed placement reported with the stored value. -/
def checkConfirmation (d : PyDict) (request_id : String) :
    Option (Bool × PyVal) :=
  match dictGet d request_id with
  | .none => none
  | .int n => some (true, .int n)
  | .str s => some (false, .str s)

/-- `TradeManager.wait_for_order_confirmation`, discretized: `trace` lists
the registry dict as seen at each 0.1 s poll until the 10 s deadline.
Exhausting the trace is the timeout path, where the Python function falls
off the loop and implicitly returns `None` (modelled as `none`). -/
def wait_for_order_confirmation : List PyDict → String → Option (Bool × PyVal)
  | [], _ => none
  | d :: rest, request_id =>
    match checkConfirmation d request_id with
    | some r => some r
    | none => wait_for_order_confirmation rest request_id

/-- Python float as used by the `amount < 1` comparison in
`_validate_options_trading_parameters` (IEEE semantics for the
non-finite values). -/
inductive PyFloat where
  | finite : ℚ → PyFloat
  | inf : PyFloat
  | ninf : PyFloat
  | nan : PyFloat
deriving DecidableEq, Repr

/-- A Python number passing `isinstance(x, (int, float))`. -/
inductive PyNum where
  | int : ℤ → PyNum
  | float : PyFloat → PyNum
deriving DecidableEq, Repr

/-- The Python comparison `amount < 1` (IEEE: `inf < 1` and `nan < 1`
are both `False`, `-inf < 1` is `True`). -/
def pyNumLtOne : PyNum → Bool
  | .int n => n < 1
  | .float (.finite q) => q < 1
  | .float .inf => false
  | .float .ninf => true
  | .float .nan => false

/-- `isinstance(expiry, int) and expiry >= 1` (the validator requires a
genuine `int`; a float expiry fails `isinstance`). -/
def pyExpiryOk : PyNum → Bool
  | .int n => 1 ≤ n
  | .float _ => false

/-- Python whitespace for `str.strip` / `\s` (ASCII range). -/
def isPySpace (c : Char) : Bool :=
  c = ' ' || c = '\t' || c = '\n' || c = '\r' || c = '\x0b' || c = '\x0c'

/-- `str.strip()`: drop leading and trailing whitespace. -/
def pyStrip (l : List Char) : List Char :=
  ((l.dropWhile isPySpace).reverse.dropWhile isPySpace).reverse

/-- ASCII `str.lower()`. -/
def pyLower (l : List Char) : List Char :=
  l.map Char.toLower

/-- `self.account_manager.current_account_id` truthiness:
`None` and `0` are falsy. -/
def accountFalsy : Option ℤ → Bool
  | none => true
  | some n => n = 0

/-- `TradeManager._validate_options_trading_parameters`, in source order:
asset must be a non-blank string, `amount < 1` fails, the lowered and
stripped direction must be `put` or `call`, expiry must be an `int >= 1`,
and a truthy account id must be present.  `some msg` is the raised
`InvalidTradeParametersError` / `TradeExecutionError`, `none` means the
checks passed. -/
def validate_options_trading_parameters (accountId : Option ℤ) (asset : String)
    (amount : PyNum) (direction : String) (expiry : PyNum) : Option String :=
  if pyStrip asset.data = [] then some "Asset name cannot be empty"
  else if pyNumLtOne amount then some "Minimum Bet Amount is $1"
  else if ¬ (pyStrip (pyLower direction.data) = "put".data ∨
             pyStrip (pyLower direction.data) = "call".data) then
    some "Direction must be put or call"
  else if ¬ pyExpiryOk expiry then some "Expiry must be positive integer"
  else if accountFalsy accountId then some "No active account available"
  else none

/-- Outcome of `TradeManager._execute_digital_option_trade`: whether
`ws_manager.send_message` was reached (the network effect) and the value
returned to the caller (`none` both for the swallowed-exception paths and
for a placement-confirmation timeout, both of which return Python `None`). -/
structure ExecOutcome where
  sent : Bool
  result : Option (Bool × PyVal)
deriving DecidableEq, Repr

/-- `TradeManager._execute_digital_option_trade`.  In source order: lower
the direction, validate, look the lowered (unstripped) direction up in
`direction_map`, build the order body — whose `get_asset_id` call raises
`KeyError` for an unknown asset before any send — then send the message and
await `wait_for_order_confirmation`.  Every raised error is caught by the
surrounding `except`, logged, and turns into a `None` return.
`assets` embeds the `UNDERLYING_ASSESTS` table, `rid` the generated random
request id, and `trace` the registry polls of the confirmation wait. -/
def execute_digital_option_trade (assets : List (String × ℤ))
    (accountId : Option ℤ) (asset : String) (amount : PyNum)
    (direction : String) (expiry : PyNum) (rid : String)
    (trace : List PyDict) : ExecOutcome :=
  let dir := pyLower direction.data
  match validate_options_trading_parameters accountId asset amount
      ⟨dir⟩ expiry with
  | some _ => ⟨false, none⟩
  | none =>
    if dir = "put".data ∨ dir = "call".data then
      match assets.lookup asset with
      | some _ => ⟨true, wait_for_order_confirmation trace rid⟩
      | none => ⟨false, none⟩
    else ⟨false, none⟩

/-- A value stored inside a `position_info` order-data dict. -/
inductive PVal where
  | str : String → PVal
  | num : ℚ → PVal
deriving DecidableEq, Repr

/-- One `position_info[order_id]` payload (`message['msg']` of a
`position-changed` push), as an association list of its dict entries. -/
abbrev OrderData := List (String × PVal)

/-- `MessageHandler.position_info`, keyed by integer order id. -/
abbrev PosMap := List (ℤ × OrderData)

/-- `position_info.get(order_id, {})` — `none` stands for the `{}` default. -/
def posGet : PosMap → ℤ → Option OrderData
  | [], _ => none
  | (k, v) :: rest, key => if k = key then some v else posGet rest key

/-- Lookup of a string key inside an order-data dict. -/
def odGet : OrderData → String → Option PVal
  | [], _ => none
  | (k, v) :: rest, key => if k = key then some v else odGet rest key

/-- `MessageHandler._handle_position_changed`: store the push payload under
its order id (overwriting any previous entry). -/
def handle_position_changed : PosMap → ℤ → OrderData → PosMap
  | [], oid, od => [(oid, od)]
  | (k, v) :: rest, oid, od =>
    if k = oid then (oid, od) :: rest
    else (k, v) :: handle_position_changed rest oid od

/-- One iteration body of `TradeManager.get_trade_outcome`:
`order_data = position_info.get(order_id, {})`; the branch is taken when
`order_data` is truthy (a non-empty dict) and `order_data.get("status")`
equals `"closed"`, in which case `pnl = order_data.get('pnl', 0)` is
returned. -/
def pollClosure (info : PosMap) (oid : ℤ) : Option PVal :=
  match posGet info oid with
  | none => none
  | some od =>
    if od ≠ [] ∧ odGet od "status" = some (.str "closed") then
      some ((odGet od "pnl").getD (.num 0))
    else none

/-- Modelled from the spec: `utilities.get_remaining_secs` is not under
`src/`; per the spec it yields the remaining time to expiry, modelled here
as a natural number of seconds and passed in as `remaining`.  The closure
loop `while time.time() - start_time < timeout + 3` polls every 0.5 s, so
poll `k` happens at `k/2` seconds and the loop admits exactly the polls
with `k/2 < remaining + 3`, i.e. `2 * remaining + 6` of them. -/
def pollCount (remaining : ℕ) : ℕ := 2 * remaining + 6

/-- The polling loop of `get_trade_outcome`: `snap k` is `position_info`
as seen at the `k`-th poll; `fuel` counts the polls still inside the
`timeout + 3` deadline. -/
def outcomeLoop (snap : ℕ → PosMap) (oid : ℤ) : ℕ → ℕ → Bool × Option PVal
  | _, 0 => (false, none)
  | k, fuel + 1 =>
    match pollClosure (snap k) oid with
    | some v => (true, some v)
    | none => outcomeLoop snap oid (k + 1) fuel

/-- `TradeManager.get_trade_outcome`: poll `position_info` every 0.5 s
until the order closes or `remaining + 3` seconds elapse; on timeout the
source returns `(False, None)`. -/
def get_trade_outcome (remaining : ℕ) (snap : ℕ → PosMap) (oid : ℤ) :
    Bool × Option PVal :=
  outcomeLoop snap oid 0 (pollCount remaining)

/-- `result_type = "WIN" if pnl > 0 else "LOSS"` (line 119 of trade.py). -/
def classifyPnl (pnl : ℚ) : String :=
  if 0 < pnl then "WIN" else "LOSS"

/-- `line.replace("i", ";")` — the first fix applied by
`clean_signal_line` after stripping. -/
def replaceI (l : List Char) : List Char :=
  l.map (fun c => if c = 'i' then ';' else c)

/-- One rewrite pass of `re.sub(r"[Oo](\d)", r"0\1", line)`: a letter `O`
or `o` immediately followed by a digit becomes `0`; the match consumes
both characters, scanning resumes after them. -/
def subODigit : List Char → List Char
  | [] => []
  | [c] => [c]
  | c1 :: c2 :: rest =>
    if (c1 = 'O' ∨ c1 = 'o') ∧ c2.isDigit then '0' :: c2 :: subODigit rest
    else c1 :: subODigit (c2 :: rest)

/-- Helper for the `[Oo]\s*:` pattern: starting right after the `O`,
consume whitespace then a colon, returning how many characters the match
consumed (or `none` if no colon follows the whitespace run). -/
def colonAfterSpaces : List Char → Option ℕ
  | [] => none
  | c :: rest =>
    if c = ':' then some 1
    else if isPySpace c then (colonAfterSpaces rest).map (· + 1)
    else none

/-- `re.sub(r"[Oo]\s*:", "0:", line)` on a fuel budget: a letter `O`/`o`
followed by optional whitespace and a colon becomes `0:`.  Every step
consumes at least one character, so a fuel equal to the list length (as
supplied by `subOColon`) is never exhausted. -/
def subOColonFuel : ℕ → List Char → List Char
  | 0, l => l
  | _ + 1, [] => []
  | fuel + 1, c :: rest =>
    if c = 'O' ∨ c = 'o' then
      match colonAfterSpaces rest with
      | some n => '0' :: ':' :: subOColonFuel fuel (rest.drop n)
      | none => c :: subOColonFuel fuel rest
    else c :: subOColonFuel fuel rest

/-- `re.sub(r"[Oo]\s*:", "0:", line)`. -/
def subOColon (l : List Char) : List Char :=
  subOColonFuel l.length l

/-- `re.sub(r"\s+", "", line)`: delete every whitespace character. -/
def dropSpaces (l : List Char) : List Char :=
  l.filter (fun c => ¬ isPySpace c)

/-- Attempt of the 1-digit-hour branch `\d:\d\d` at the head of the list,
returning the number of characters matched. -/
def matchTime1 : List Char → Option ℕ
  | a :: ':' :: c :: d :: _ =>
    if a.isDigit && c.isDigit && d.isDigit then some 4 else none
  | _ => none

/-- Attempt of `\d{1,2}:\d{2}` at the head of the list (greedy: prefer the
2-digit hour, backtrack to 1 digit), returning the characters matched. -/
def matchTimeAt : List Char → Option ℕ
  | a :: b :: ':' :: c :: d :: rest =>
    if a.isDigit && b.isDigit && c.isDigit && d.isDigit then some 5
    else matchTime1 (a :: b :: ':' :: c :: d :: rest)
  | l => matchTime1 l

/-- ASCII `[A-Z]`. -/
def isUpperAZ (c : Char) : Bool := 'A' ≤ c && c ≤ 'Z'

/-- Attempt of `[A-Z]{6}` at the head of the list. -/
def matchUpper6 : List Char → Option ℕ
  | a :: b :: c :: d :: e :: f :: _ =>
    if isUpperAZ a && isUpperAZ b && isUpperAZ c && isUpperAZ d &&
       isUpperAZ e && isUpperAZ f then some 6
    else none
  | _ => none

/-- Literal-word attempt at the head of the list. -/
def matchLit (w l : List Char) : Option ℕ :=
  if w.isPrefixOf l then some w.length else none

/-- Length of the leading digit run. -/
def digitRun : List Char → ℕ
  | [] => 0
  | c :: rest => if c.isDigit then digitRun rest + 1 else 0

/-- Attempt of `\d+` at the head of the list. -/
def matchDigits (l : List Char) : Option ℕ :=
  if digitRun l = 0 then none else some (digitRun l)

/-- One attempt of `\d{1,2}:\d{2}|[A-Z]{6}|CALL|PUT|\d+` at the head of
the list, trying the alternatives in the pattern's order. -/
def matchAlt (l : List Char) : Option ℕ :=
  match matchTimeAt l with
  | some n => some n
  | none =>
    match matchUpper6 l with
    | some n => some n
    | none =>
      match matchLit "CALL".data l with
      | some n => some n
      | none =>
        match matchLit "PUT".data l with
        | some n => some n
        | none => matchDigits l

/-- `re.findall(r"(\d{1,2}:\d{2}|[A-Z]{6}|CALL|PUT|\d+)", line)` on a
fuel budget: scan left to right, at each position try the alternation;
on a match emit it and resume after it, otherwise advance one character.
Every matched alternative consumes at least one character, so a fuel
equal to the list length (as supplied by `pyFindall`) is never
exhausted. -/
def pyFindallFuel : ℕ → List Char → List (List Char)
  | 0, _ => []
  | _ + 1, [] => []
  | fuel + 1, c :: rest =>
    match matchAlt (c :: rest) with
    | some n => (c :: rest).take n :: pyFindallFuel fuel ((c :: rest).drop n)
    | none => pyFindallFuel fuel rest

/-- `re.findall(r"(\d{1,2}:\d{2}|[A-Z]{6}|CALL|PUT|\d+)", line)`. -/
def pyFindall (l : List Char) : List (List Char) :=
  pyFindallFuel l.length l

/-- The tail of `clean_signal_line` after the `replace("i", ";")` step:
the two `O`-to-zero substitutions, whitespace removal, and — when no `;`
is present — the `re.findall` field recovery joined with `;`. -/
def cleanRest (l : List Char) : List Char :=
  let l4 := dropSpaces (subOColon (subODigit l))
  if l4.contains ';' then l4
  else List.intercalate [';'] (pyFindall l4)

/-- `signal_parser.clean_signal_line`: strip, replace `i` by `;`, fix the
`O` typos, remove whitespace, and recover `;`-separated fields if needed. -/
def clean_signal_line (line : List Char) : List Char :=
  cleanRest (replaceI (pyStrip line))

/-- Python `cleaned.split(";")` (`"".split(";") == [""]`, empty fields
kept). -/
def splitSemi : List Char → List (List Char)
  | [] => [[]]
  | ';' :: rest => [] :: splitSemi rest
  | c :: rest =>
    match splitSemi rest with
    | [] => [[c]]
    | p :: ps => (c :: p) :: ps

/-- ASCII `str.upper()`. -/
def pyUpper (l : List Char) : List Char :=
  l.map Char.toUpper

/-- `parts[1].upper().replace("/", "")`. -/
def dropSlash (l : List Char) : List Char :=
  l.filter (fun c => c ≠ '/')

/-- `re.sub(r"\D", "", s)`: keep only digits. -/
def onlyDigits (l : List Char) : List Char :=
  l.filter Char.isDigit

/-- Decimal value of a digit list (the argument of a successful `int(s)`). -/
def natOfDigits (l : List Char) : ℕ :=
  l.foldl (fun n c => n * 10 + (c.toNat - 48)) 0

/-- `re.match(r"^\d{1,2}:\d{2}$", time_str)`: exactly `H:MM` or `HH:MM`. -/
def isValidTime : List Char → Bool
  | [a, ':', c, d] => a.isDigit && c.isDigit && d.isDigit
  | [a, b, ':', c, d] => a.isDigit && b.isDigit && c.isDigit && d.isDigit
  | _ => false

/-- A parsed signal dictionary. -/
structure Signal where
  time : List Char
  pair : List Char
  direction : List Char
  expiry : ℕ
deriving DecidableEq, Repr

/-- The body of `signal_parser.parse_signal` before its `except` clause:
`Except.error ()` is a raised exception — the only raising expression is
`int(re.sub(r"\D", "", parts[3]))` on a digit-free field, evaluated before
the time and direction validations — and `Except.ok none` is a validation
failure (logged and skipped). -/
def parseSignalBody (line : List Char) : Except Unit (Option Signal) :=
  let cleaned := clean_signal_line line
  let parts := splitSemi cleaned
  if parts.length < 4 then .ok none
  else
    let time_str := pyStrip (parts.getD 0 [])
    let pair := dropSlash (pyUpper (parts.getD 1 []))
    let direction := pyUpper (parts.getD 2 [])
    let digs := onlyDigits (parts.getD 3 [])
    if digs = [] then .error ()
    else
      let expiry := natOfDigits digs
      if ¬ isValidTime time_str then .ok none
      else if ¬ (direction = "CALL".data ∨ direction = "PUT".data) then .ok none
      else .ok (some ⟨time_str, pair, direction, expiry⟩)

/-- `signal_parser.parse_signal`: the surrounding `try`/`except` turns any
raised exception into a logged `None`. -/
def parse_signal (line : List Char) : Option Signal :=
  match parseSignalBody line with
  | .ok r => r
  | .error _ => none

/-- `re.split(r'(\d{1,2}:\d{2})', text)`: split on time matches, keeping
each matched delimiter as its own element (so the result alternates
non-match text and matches, starting and ending with non-match text). -/
def timeSplitFuel : ℕ → List Char → List (List Char)
  | 0, l => [l]
  | _ + 1, [] => [[]]
  | fuel + 1, c :: rest =>
    match matchTimeAt (c :: rest) with
    | some n =>
      [] :: (c :: rest).take n :: timeSplitFuel fuel ((c :: rest).drop n)
    | none =>
      match timeSplitFuel fuel rest with
      | [] => [[c]]
      | p :: ps => (c :: p) :: ps

/-- `re.split(r'(\d{1,2}:\d{2})', text)`; a time match consumes at least
one character, so a fuel equal to the text length is never exhausted. -/
def timeSplit (l : List Char) : List (List Char) :=
  timeSplitFuel l.length l

/-- The loop of `parse_signals_from_text`: after discarding the leading
non-match text, take (time, following-text) pairs, reconstruct each line
as their concatenation, and keep the successfully parsed signals. -/
def collectPairs : List (List Char) → List Signal
  | t :: body :: rest =>
    (match parse_signal (t ++ body) with
     | some s => s :: collectPairs rest
     | none => collectPairs rest)
  | _ => []

/-- `signal_parser.parse_signals_from_text`. -/
def parse_signals_from_text (text : List Char) : List Signal :=
  match timeSplit text with
  | [] => []
  | _ :: rest => collectPairs rest

/-- One trade-result dict as consumed by the report fold of
`telegram_bot.process_and_schedule_signals`. -/
structure TradeRes where
  asset : String
  direction : String
  result : String
  gales : ℕ
  profit : ℚ
deriving DecidableEq, Repr

/-- The report fold of `process_and_schedule_signals` (lines 169-182):
falsy results are skipped (`if not res: continue`), a `"WIN"` bumps the
win count and adds its profit, a `"LOSS"` bumps the loss count and adds
its (possibly zero or negative) profit, anything else is only displayed. -/
def foldReportAux : List (Option TradeRes) → ℕ × ℕ × ℚ → ℕ × ℕ × ℚ
  | [], acc => acc
  | none :: rest, acc => foldReportAux rest acc
  | some r :: rest, (w, l, p) =>
    if r.result = "WIN" then foldReportAux rest (w + 1, l, p + r.profit)
    else if r.result = "LOSS" then foldReportAux rest (w, l + 1, p + r.profit)
    else foldReportAux rest (w, l, p)

/-- Wins, losses and total profit of a completed session. -/
def foldReport (rs : List (Option TradeRes)) : ℕ × ℕ × ℚ :=
  foldReportAux rs (0, 0, 0)

/-- Specification-side count of `WIN` results. -/
def winCount (rs : List (Option TradeRes)) : ℕ :=
  rs.countP (fun o => match o with
    | some r => r.result = "WIN"
    | none => false)

/-- Specification-side count of `LOSS` results. -/
def lossCount (rs : List (Option TradeRes)) : ℕ :=
  rs.countP (fun o => match o with
    | some r => r.result = "LOSS"
    | none => false)

/-- Specification-side profit sum over `WIN` and `LOSS` results only. -/
def profitSum : List (Option TradeRes) → ℚ
  | [] => 0
  | none :: rest => profitSum rest
  | some r :: rest =>
    if r.result = "WIN" ∨ r.result = "LOSS" then r.profit + profitSum rest
    else profitSum rest

theorem dictGet_insert (d : PyDict) (k : String) (v : PyVal) :
    dictGet (dictInsert d k v) k = v := by
  induction d with
  | nil => simp [dictInsert, dictGet]
  | cons p rest ih =>
    obtain ⟨k', v'⟩ := p
    by_cases h : k' = k
    · simp [dictInsert, h, dictGet]
    · simp [dictInsert, h, dictGet, ih]

theorem dictHasKey_insert (d : PyDict) (k : String) (v : PyVal) :
    dictHasKey (dictInsert d k v) k = true := by
  induction d with
  | nil => simp [dictInsert, dictHasKey]
  | cons p rest ih =>
    obtain ⟨k', v'⟩ := p
    by_cases h : k' = k
    · simp [dictInsert, h, dictHasKey]
    · simp [dictInsert, h, dictHasKey, ih]

theorem dictHasKey_false_get (d : PyDict) (k : String)
    (h : dictHasKey d k = false) : dictGet d k = PyVal.none := by
  induction d with
  | nil => rfl
  | cons p rest ih =>
    obtain ⟨k', v'⟩ := p
    by_cases hk : k' = k
    · simp [dictHasKey, hk] at h
    · simp [dictHasKey, hk] at h
      simp [dictGet, hk, ih h]

theorem wait_skip (pre tr : List PyDict) (k : String)
    (h : ∀ d ∈ pre, dictGet d k = PyVal.none) :
    wait_for_order_confirmation (pre ++ tr) k =
      wait_for_order_confirmation tr k := by
  induction pre with
  | nil => rfl
  | cons d pre ih =>
    have hd := h d (by simp)
    simp only [List.cons_append, wait_for_order_confirmation,
      checkConfirmation, hd]
    exact ih (fun d' hd' => h d' (by simp [hd']))

theorem wait_none (tr : List PyDict) (k : String)
    (h : ∀ d ∈ tr, dictGet d k = PyVal.none) :
    wait_for_order_confirmation tr k = none := by
  induction tr with
  | nil => rfl
  | cons d tr ih =>
    have hd := h d (by simp)
    simp only [wait_for_order_confirmation, checkConfirmation, hd]
    exact ih (fun d' hd' => h d' (by simp [hd']))

/-- C1: a placement-result push dispatched for request id `k` resolves a
waiter on `k`: a non-null numeric order identifier makes the confirmation
wait return success with that order id, and an absent identifier makes it
return failure with the rejection message text — also for a waiter that
was already polling earlier states holding nothing for `k`. -/
theorem c1_placement_dispatch_resolves_wait (pre : List PyDict) (st : PyDict)
    (tr : List PyDict) (k : String) (pid : Option ℤ) (pmsg : Option String)
    (hpre : ∀ d ∈ pre, dictGet d k = PyVal.none) :
    (∀ n : ℤ, pid = some n →
      wait_for_order_confirmation
        (pre ++ handle_digital_option_placed st k pid pmsg :: tr) k
        = some (true, PyVal.int n)) ∧
    (∀ s : String, pid = none → pmsg = some s →
      wait_for_order_confirmation
        (pre ++ handle_digital_option_placed st k pid pmsg :: tr) k
        = some (false, PyVal.str s)) := by
  constructor
  · intro n hn
    subst hn
    rw [wait_skip _ _ _ hpre]
    simp [wait_for_order_confirmation, handle_digital_option_placed,
      checkConfirmation, dictGet_insert]
  · intro s h1 h2
    subst h1
    subst h2
    rw [wait_skip _ _ _ hpre]
    simp [wait_for_order_confirmation, handle_digital_option_placed,
      checkConfirmation, dictGet_insert]

theorem c1_placement_dispatch_resolves_wait_witness :
    wait_for_order_confirmation
      [handle_digital_option_placed [] "5" (some 3) none] "5"
      = some (true, PyVal.int 3) ∧
    wait_for_order_confirmation
      [handle_digital_option_placed [] "6" none (some "rejected")] "6"
      = some (false, PyVal.str "rejected") :=
  ⟨(c1_placement_dispatch_resolves_wait [] [] [] "5" (some 3) none
      (by simp)).1 3 rfl,
   (c1_placement_dispatch_resolves_wait [] [] [] "6" none (some "rejected")
      (by simp)).2 "rejected" rfl rfl⟩

/-- C2 counterexample: a rejection push for request id `"42"` is read by
its waiter (the wait returns the terminal failure), yet the registry still
holds an entry for `"42"` afterwards — no code path ever deletes it. -/
theorem c2_counterexample_terminal_entry_retained :
    wait_for_order_confirmation
      [handle_digital_option_placed [] "42" none (some "rejected")] "42"
      = some (false, PyVal.str "rejected") ∧
    dictHasKey (handle_digital_option_placed [] "42" none (some "rejected"))
      "42" = true := by
  decide

/-- C2 amended: terminal entries are never removed from the registry — a
rejected slot is still held after being read by its waiter.  Only a key
that never received any push is absent after a confirmation timeout,
because pushes are the sole way entries are created. -/
theorem c2_amended_retention_and_timeout (st : PyDict) (k s : String)
    (tr : List PyDict) (k2 : String)
    (h : ∀ d ∈ tr, dictHasKey d k2 = false) :
    dictHasKey (handle_digital_option_placed st k none (some s)) k = true ∧
    checkConfirmation (handle_digital_option_placed st k none (some s)) k
      = some (false, PyVal.str s) ∧
    wait_for_order_confirmation tr k2 = none := by
  refine ⟨?_, ?_, ?_⟩
  · simp [handle_digital_option_placed, dictHasKey_insert]
  · simp [handle_digital_option_placed, checkConfirmation, dictGet_insert]
  · exact wait_none tr k2 (fun d hd => dictHasKey_false_get d k2 (h d hd))

theorem c2_amended_retention_and_timeout_witness :
    dictHasKey (handle_digital_option_placed [] "9" none (some "err")) "9"
      = true ∧
    checkConfirmation (handle_digital_option_placed [] "9" none (some "err"))
      "9" = some (false, PyVal.str "err") ∧
    wait_for_order_confirmation [[("a", PyVal.int 1)], []] "b" = none :=
  c2_amended_retention_and_timeout [] "9" "err" [[("a", PyVal.int 1)], []] "b"
    (by decide)

/-- C4 counterexample: request id `"9"` already holds an unresolved entry,
yet dispatching a second placement result for the same key succeeds and
silently overwrites the slot with the new order id — there is no
`DuplicateKeyError` anywhere in the code. -/
theorem c4_counterexample_duplicate_overwrites :
    dictHasKey (handle_digital_option_placed [] "9" (some 1) none) "9"
      = true ∧
    dictGet (handle_digital_option_placed
      (handle_digital_option_placed [] "9" (some 1) none) "9" (some 2) none)
      "9" = PyVal.int 2 := by
  decide

/-- C4 amended: the registry has no registration step and no duplicate-key
protection: a placement push for a key that already holds an entry
overwrites the existing slot (last write wins), for any prior state. -/
theorem c4_amended_last_write_wins (st : PyDict) (k : String) (n m : ℤ) :
    dictHasKey (handle_digital_option_placed st k (some n) none) k = true ∧
    dictGet (handle_digital_option_placed
      (handle_digital_option_placed st k (some n) none) k (some m) none) k
      = PyVal.int m := by
  constructor
  · simp [handle_digital_option_placed, dictHasKey_insert]
  · simp [handle_digital_option_placed, dictGet_insert]

/-- C3 counterexample: with valid parameters, a known asset, an active
account, and no placement push ever arriving (100 polls of an empty
registry), the order is submitted but the executor returns Python `None`
(`none`) — an absent value, not a terminal `TradeResult`. -/
theorem c3_counterexample_timeout_returns_none :
    execute_digital_option_trade [("EURUSD", 76)] (some 1) "EURUSD"
      (PyNum.int 10) "call" (PyNum.int 5) "7" (List.replicate 100 [])
      = ⟨true, none⟩ := by
  decide

/-- C3 amended: whenever the order was submitted, the executor's return
value is exactly the placement wait's outcome (so it never proceeds to
closure waiting); a rejection push yields the terminal failure pair with
the rejection reason, while a wait that times out with no push yields
`None` (an absent value). -/
theorem c3_amended_rejection_or_none (assets : List (String × ℤ))
    (accountId : Option ℤ) (asset : String) (amount : PyNum)
    (direction : String) (expiry : PyNum) (rid : String)
    (trace : List PyDict)
    (hsent : (execute_digital_option_trade assets accountId asset amount
      direction expiry rid trace).sent = true) :
    (execute_digital_option_trade assets accountId asset amount direction
      expiry rid trace).result = wait_for_order_confirmation trace rid ∧
    ((∀ d ∈ trace, dictGet d rid = PyVal.none) →
      (execute_digital_option_trade assets accountId asset amount direction
        expiry rid trace).result = none) ∧
    (∀ s d tr2, trace = d :: tr2 → dictGet d rid = PyVal.str s →
      (execute_digital_option_trade assets accountId asset amount direction
        expiry rid trace).result = some (false, PyVal.str s)) := by
  cases hv : validate_options_trading_parameters accountId asset amount
      ⟨pyLower direction.data⟩ expiry with
  | some e =>
    exfalso
    simp [execute_digital_option_trade, hv] at hsent
  | none =>
    by_cases hd : (pyLower direction.data = "put".data ∨
        pyLower direction.data = "call".data)
    · cases hl : assets.lookup asset with
      | some v =>
        have he : execute_digital_option_trade assets accountId asset amount
            direction expiry rid trace
            = ⟨true, wait_for_order_confirmation trace rid⟩ := by
          simp [execute_digital_option_trade, hv, hd, hl]
        rw [he]
        refine ⟨rfl, ?_, ?_⟩
        · intro h
          exact wait_none trace rid h
        · intro s d tr2 ht hget
          subst ht
          simp [wait_for_order_confirmation, checkConfirmation, hget]
      | none =>
        exfalso
        simp [execute_digital_option_trade, hv, hd, hl] at hsent
    · exfalso
      simp [execute_digital_option_trade, hv, hd] at hsent

theorem c3_amended_rejection_or_none_witness :
    (execute_digital_option_trade [("EURUSD", 76)] (some 1) "EURUSD"
      (PyNum.int 10) "call" (PyNum.int 5) "7"
      [[("7", PyVal.str "rej")]]).result = some (false, PyVal.str "rej") :=
  (c3_amended_rejection_or_none [("EURUSD", 76)] (some 1) "EURUSD"
    (PyNum.int 10) "call" (PyNum.int 5) "7" [[("7", PyVal.str "rej")]]
    (by decide)).2.2 "rej" [("7", PyVal.str "rej")] [] rfl (by decide)

theorem outcomeLoop_all_none (snap : ℕ → PosMap) (oid : ℤ) :
    ∀ fuel k, (∀ i < fuel, pollClosure (snap (k + i)) oid = none) →
      outcomeLoop snap oid k fuel = (false, none) := by
  intro fuel
  induction fuel with
  | zero => intro k _; rfl
  | succ f ih =>
    intro k h
    have h0 := h 0 (Nat.succ_pos f)
    simp only [Nat.add_zero] at h0
    simp only [outcomeLoop, h0]
    exact ih (k + 1) (fun i hi => by
      have := h (i + 1) (by omega)
      simpa [Nat.add_comm, Nat.add_assoc, Nat.add_left_comm] using this)

theorem outcomeLoop_finds (snap : ℕ → PosMap) (oid : ℤ) :
    ∀ i fuel k v, i < fuel → pollClosure (snap (k + i)) oid = some v →
      (∀ j < i, pollClosure (snap (k + j)) oid = none) →
      outcomeLoop snap oid k fuel = (true, some v) := by
  intro i
  induction i with
  | zero =>
    intro fuel k v hf hp _
    cases fuel with
    | zero => omega
    | succ f =>
      simp only [Nat.add_zero] at hp
      simp [outcomeLoop, hp]
  | succ i ih =>
    intro fuel k v hf hp hnone
    cases fuel with
    | zero => omega
    | succ f =>
      have h0 := hnone 0 (Nat.succ_pos i)
      simp only [Nat.add_zero] at h0
      simp only [outcomeLoop, h0]
      refine ih f (k + 1) v (by omega) ?_ ?_
      · have : k + 1 + i = k + (i + 1) := by omega
        rw [this]
        exact hp
      · intro j hj
        have := hnone (j + 1) (by omega)
        simpa [Nat.add_comm, Nat.add_assoc, Nat.add_left_comm] using this

/-- C5: the closure wait admits exactly the 0.5 s polls strictly before
`remaining + 3` seconds (the fixed 3-second grace window); a recorded
`position-changed` payload is visible to the poll; if the first successful
poll inside the deadline sees a closed record with profit `q`, the wait
returns success with that `q`, classified `WIN` for `q > 0` and `LOSS`
for `q ≤ 0`; if no poll inside the deadline succeeds, the wait returns
the timeout outcome `(False, None)` carrying no pnl. -/
theorem c5_closure_wait_deadline_and_pnl (remaining : ℕ)
    (snap : ℕ → PosMap) (oid : ℤ) :
    (∀ k : ℕ, k < pollCount remaining ↔
      (k : ℚ) / 2 < (remaining : ℚ) + 3) ∧
    (∀ (info : PosMap) (oid2 : ℤ) (od : OrderData),
      posGet (handle_position_changed info oid2 od) oid2 = some od) ∧
    ((∀ k < pollCount remaining, pollClosure (snap k) oid = none) →
      get_trade_outcome remaining snap oid = (false, none)) ∧
    (∀ k q, k < pollCount remaining →
      (∀ j < k, pollClosure (snap j) oid = none) →
      pollClosure (snap k) oid = some (PVal.num q) →
      get_trade_outcome remaining snap oid = (true, some (PVal.num q))) ∧
    (∀ q : ℚ, (0 < q → classifyPnl q = "WIN") ∧
      (q ≤ 0 → classifyPnl q = "LOSS")) := by
  refine ⟨?_, ?_, ?_, ?_, ?_⟩
  · intro k
    unfold pollCount
    rw [div_lt_iff (by norm_num : (0 : ℚ) < 2)]
    constructor
    · intro h
      have : (k : ℚ) < 2 * (remaining : ℚ) + 6 := by exact_mod_cast h
      linarith
    · intro h
      have : (k : ℚ) < 2 * (remaining : ℚ) + 6 := by linarith
      exact_mod_cast this
  · intro info oid2 od
    induction info with
    | nil => simp [handle_position_changed, posGet]
    | cons p rest ih =>
      obtain ⟨k', v'⟩ := p
      by_cases h : k' = oid2
      · simp [handle_position_changed, h, posGet]
      · simp [handle_position_changed, h, posGet, ih]
  · intro h
    exact outcomeLoop_all_none snap oid (pollCount remaining) 0
      (fun i hi => by simpa using h i hi)
  · intro k q hk hnone hp
    exact outcomeLoop_finds snap oid k (pollCount remaining) 0
      (PVal.num q) hk (by simpa using hp)
      (fun j hj => by simpa using hnone j hj)
  · intro q
    constructor
    · intro h
      simp [classifyPnl, h]
    · intro h
      simp [classifyPnl, not_lt.mpr h]

theorem c5_closure_wait_deadline_and_pnl_witness :
    get_trade_outcome 0
      (fun _ => [(7, [("status", PVal.str "closed"), ("pnl", PVal.num 5)])])
      7 = (true, some (PVal.num 5)) :=
  (c5_closure_wait_deadline_and_pnl 0
    (fun _ => [(7, [("status", PVal.str "closed"), ("pnl", PVal.num 5)])])
    7).2.2.2.1 0 5 (by decide) (by omega) (by decide)

/-- C6 counterexample: `float('inf')` is not a finite number `≥ 1`, so the
claim requires no submission — yet validation only tests `amount < 1`,
which is `False` for `inf`, and the order is submitted to the sink. -/
theorem c6_counterexample_inf_amount_submitted :
    (execute_digital_option_trade [("EURUSD", 76)] (some 1) "EURUSD"
      (PyNum.float PyFloat.inf) "call" (PyNum.int 5) "3" []).sent
      = true := by
  decide

/-- C6 amended: an order is submitted exactly when every implemented check
passes — non-blank asset, `amount < 1` false, direction lowering and
stripping to `put`/`call`, direction-map hit, integer expiry `≥ 1`, truthy
account id, and a successful asset-table lookup; any failing check yields
no submission and the absent (`None`) result of the caught, logged error.
The implemented amount test is the Python comparison `amount < 1`, under
which the non-finite values `inf` and `nan` pass and are submitted. -/
theorem c6_amended_validation_gates_submission (assets : List (String × ℤ))
    (accountId : Option ℤ) (asset : String) (amount : PyNum)
    (direction : String) (expiry : PyNum) (rid : String)
    (trace : List PyDict) :
    ((execute_digital_option_trade assets accountId asset amount direction
        expiry rid trace).sent = true ↔
      (validate_options_trading_parameters accountId asset amount
          ⟨pyLower direction.data⟩ expiry = none ∧
        (pyLower direction.data = "put".data ∨
          pyLower direction.data = "call".data) ∧
        (assets.lookup asset).isSome = true)) ∧
    (execute_digital_option_trade assets accountId asset amount direction
        expiry rid trace
        = ⟨true, wait_for_order_confirmation trace rid⟩ ∨
      execute_digital_option_trade assets accountId asset amount direction
        expiry rid trace = ⟨false, none⟩) ∧
    (∀ d : String, validate_options_trading_parameters accountId asset
        amount d expiry = none ↔
      (pyStrip asset.data ≠ [] ∧ pyNumLtOne amount = false ∧
        (pyStrip (pyLower d.data) = "put".data ∨
          pyStrip (pyLower d.data) = "call".data) ∧
        pyExpiryOk expiry = true ∧ accountFalsy accountId = false)) ∧
    pyNumLtOne (PyNum.float PyFloat.inf) = false ∧
    pyNumLtOne (PyNum.float PyFloat.nan) = false ∧
    (∀ q : ℚ, pyNumLtOne (PyNum.float (PyFloat.finite q))
      = decide (q < 1)) ∧
    (∀ n : ℤ, pyNumLtOne (PyNum.int n) = decide (n < 1)) := by
  refine ⟨?_, ?_, ?_, rfl, rfl, fun q => rfl, fun n => rfl⟩
  · cases hv : validate_options_trading_parameters accountId asset amount
        ⟨pyLower direction.data⟩ expiry with
    | some e => simp [execute_digital_option_trade, hv]
    | none =>
      by_cases hd : (pyLower direction.data = "put".data ∨
          pyLower direction.data = "call".data)
      · cases hl : assets.lookup asset with
        | some v => simp [execute_digital_option_trade, hv, hd, hl]
        | none => simp [execute_digital_option_trade, hv, hd, hl]
      · simp [execute_digital_option_trade, hv, hd]
  · cases hv : validate_options_trading_parameters accountId asset amount
        ⟨pyLower direction.data⟩ expiry with
    | some e => right; simp [execute_digital_option_trade, hv]
    | none =>
      by_cases hd : (pyLower direction.data = "put".data ∨
          pyLower direction.data = "call".data)
      · cases hl : assets.lookup asset with
        | some v => left; simp [execute_digital_option_trade, hv, hd, hl]
        | none => right; simp [execute_digital_option_trade, hv, hd, hl]
      · right; simp [execute_digital_option_trade, hv, hd]
  · intro d
    unfold validate_options_trading_parameters
    split_ifs with h1 h2 h3 h4 h5 <;> simp_all

theorem c6_amended_validation_gates_submission_witness :
    (execute_digital_option_trade [("EURUSD", 76)] (some 1) "EURUSD"
      (PyNum.int 1) "put" (PyNum.int 1) "2" []).sent = true ∧
    pyNumLtOne (PyNum.float PyFloat.inf) = false :=
  ⟨(c6_amended_validation_gates_submission [("EURUSD", 76)] (some 1)
      "EURUSD" (PyNum.int 1) "put" (PyNum.int 1) "2" []).1.mpr
      ⟨by decide, by decide, by decide⟩,
   (c6_amended_validation_gates_submission [] none "" (PyNum.int 1) ""
      (PyNum.int 1) "" []).2.2.2.1⟩

theorem foldReportAux_spec (rs : List (Option TradeRes)) :
    ∀ w l p, foldReportAux rs (w, l, p)
      = (w + winCount rs, l + lossCount rs, p + profitSum rs) := by
  induction rs with
  | nil => intro w l p; simp [foldReportAux, winCount, lossCount, profitSum]
  | cons o rest ih =>
    intro w l p
    cases o with
    | none => simp [foldReportAux, winCount, lossCount, profitSum, ih]
    | some r =>
      by_cases hw : r.result = "WIN"
      · simp [foldReportAux, hw, winCount, lossCount, profitSum, ih,
          List.countP_cons]
        constructor
        · omega
        · ring
      · by_cases hl : r.result = "LOSS"
        · simp [foldReportAux, hw, hl, winCount, lossCount, profitSum, ih,
            List.countP_cons]
          constructor
          · omega
          · ring
        · simp [foldReportAux, hw, hl, winCount, lossCount, profitSum, ih,
            List.countP_cons]

/-- C7: the session report counts exactly the `WIN` results as wins and
the `LOSS` results as losses, and its total profit is the sum of the
profit of every `WIN` and every `LOSS` result (a `LOSS` contributing its
possibly zero or negative profit); absent (`None`) and other (e.g.
`TIMEOUT`) results are counted in neither tally and contribute nothing. -/
theorem c7_report_fold_counts_and_profit (rs : List (Option TradeRes)) :
    foldReport rs = (winCount rs, lossCount rs, profitSum rs) := by
  have h := foldReportAux_spec rs 0 0 0
  simpa [foldReport] using h

theorem c7_report_fold_counts_and_profit_witness :
    foldReport
      [some ⟨"EURAUD", "CALL", "WIN", 0, 10⟩,
       some ⟨"GBPUSD", "PUT", "LOSS", 0, -5⟩,
       none,
       some ⟨"EURUSD", "CALL", "TIMEOUT", 1, 99⟩]
      = (1, 1, 5) :=
  (c7_report_fold_counts_and_profit
    [some ⟨"EURAUD", "CALL", "WIN", 0, 10⟩,
     some ⟨"GBPUSD", "PUT", "LOSS", 0, -5⟩,
     none,
     some ⟨"EURUSD", "CALL", "TIMEOUT", 1, 99⟩]).trans
    (by simp [winCount, lossCount, profitSum, List.countP, List.countP.go]
        norm_num)

theorem collectPairs_le_aux :
    ∀ (n : ℕ) (l : List (List Char)), l.length ≤ n →
      (collectPairs l).length ≤ l.length / 2 := by
  intro n
  induction n with
  | zero =>
    intro l h
    cases l with
    | nil => simp [collectPairs]
    | cons x xs => simp at h
  | succ n ih =>
    intro l h
    match l with
    | [] => simp [collectPairs]
    | [x] => simp [collectPairs]
    | t :: body :: rest =>
      have hr : rest.length ≤ n := by
        simp only [List.length_cons] at h
        omega
      have hb := ih rest hr
      cases hp : parse_signal (t ++ body) with
      | some s =>
        simp only [collectPairs, hp, List.length_cons]
        omega
      | none =>
        simp only [collectPairs, hp, List.length_cons]
        omega

theorem collectPairs_le (l : List (List Char)) :
    (collectPairs l).length ≤ l.length / 2 :=
  collectPairs_le_aux l.length l (Nat.le_refl _)

/-- C8 counterexample: this input is a single line (it contains no
newline), yet the parser returns two signals — the split is on `HH:MM`
occurrences, not on lines, so the claimed per-line bound fails. -/
theorem c8_counterexample_two_signals_one_line :
    "03:40;EURAUD;CALL;5 04:40;GBPUSD;PUT;5".data.count '\n' = 0 ∧
    (parse_signals_from_text
      "03:40;EURAUD;CALL;5 04:40;GBPUSD;PUT;5".data).length = 2 := by
  constructor
  · decide
  · decide

/-- C8 amended: parsing never raises — the only raising expression, the
`int` conversion of a digit-free expiry field, is caught by the
surrounding `except` and yields `None` for that line — and the parser
returns at most one `Signal` per `HH:MM` time occurrence in the text
(which can exceed the number of input lines when one line contains
several time patterns). -/
theorem c8_amended_no_raise_and_match_bound (text line : List Char) :
    (parse_signals_from_text text).length ≤ (timeSplit text).length / 2 ∧
    (parseSignalBody line = Except.error () → parse_signal line = none) := by
  constructor
  · unfold parse_signals_from_text
    cases h : timeSplit text with
    | nil => simp
    | cons p rest =>
      have hb := collectPairs_le rest
      simp only [List.length_cons]
      omega
  · intro h
    unfold parse_signal
    rw [h]

theorem c8_amended_no_raise_and_match_bound_witness :
    (parse_signals_from_text "".data).length ≤
      (timeSplit "".data).length / 2 ∧
    parse_signal "03:40;EURAUD;CALL;x".data = none :=
  ⟨(c8_amended_no_raise_and_match_bound "".data
      "03:40;EURAUD;CALL;x".data).1,
   (c8_amended_no_raise_and_match_bound "".data
      "03:40;EURAUD;CALL;x".data).2 (by rfl)⟩

/-- C9 counterexample: the claimed normalization of
`O3:4O;EURAUD;CALL;5` to `03:40;EURAUD;CALL;5` does not happen — the
trailing `O` after the digit `4` is not rewritten (only `O` *before* a
digit or before a colon is), and the line is rejected rather than parsed
successfully. -/
theorem c9_counterexample_trailing_O_not_fixed :
    clean_signal_line "O3:4O;EURAUD;CALL;5".data ≠
      "03:40;EURAUD;CALL;5".data ∧
    parse_signal "O3:4O;EURAUD;CALL;5".data = none := by
  constructor
  · decide
  · decide

/-- C9 amended: cleanup rewrites a letter `O`/`o` immediately *before* a
digit, or before (optional whitespace and) a colon, to zero; an `O` that
follows a digit is left unchanged.  So `O3:4O;EURAUD;CALL;5` normalizes
to `03:4O;EURAUD;CALL;5` and is dropped for its invalid time, while
`O3:40;EURAUD;CALL;5` parses successfully into time `03:40`. -/
theorem c9_amended_leading_O_only :
    clean_signal_line "O3:4O;EURAUD;CALL;5".data =
      "03:4O;EURAUD;CALL;5".data ∧
    parse_signal "O3:4O;EURAUD;CALL;5".data = none ∧
    clean_signal_line "O3:40;EURAUD;CALL;5".data =
      "03:40;EURAUD;CALL;5".data ∧
    parse_signal "O3:40;EURAUD;CALL;5".data =
      some ⟨"03:40".data, "EURAUD".data, "CALL".data, 5⟩ := by
  refine ⟨by decide, by decide, by decide, by decide⟩

theorem dropWhile_map_comm (f : Char → Char) (p : Char → Bool)
    (h : ∀ c, p (f c) = p c) (l : List Char) :
    List.dropWhile p (l.map f) = (List.dropWhile p l).map f := by
  induction l with
  | nil => rfl
  | cons c rest ih =>
    simp only [List.map_cons, List.dropWhile, h c]
    cases hc : p c with
    | true => simpa [hc] using ih
    | false => simp [hc]

theorem isPySpace_repI (c : Char) :
    isPySpace (if c = 'i' then ';' else c) = isPySpace c := by
  by_cases hc : c = 'i'
  · subst hc
    decide
  · simp [hc]

theorem pyStrip_replaceI (l : List Char) :
    pyStrip (replaceI l) = replaceI (pyStrip l) := by
  unfold pyStrip replaceI
  rw [dropWhile_map_comm _ _ isPySpace_repI l]
  rw [← List.map_reverse]
  rw [dropWhile_map_comm _ _ isPySpace_repI]
  rw [← List.map_reverse]

theorem replaceI_replaceI (l : List Char) :
    replaceI (replaceI l) = replaceI l := by
  induction l with
  | nil => rfl
  | cons c rest ih =>
    simp only [replaceI, List.map_cons] at ih ⊢
    rw [ih]
    by_cases hc : c = 'i'
    · subst hc
      simp
    · simp [hc]

theorem count_i_replaceI (l : List Char) :
    (replaceI l).count 'i' = 0 := by
  induction l with
  | nil => rfl
  | cons c rest ih =>
    simp only [replaceI, List.map_cons, List.count_cons] at ih ⊢
    by_cases hc : c = 'i'
    · subst hc
      simpa using ih
    · simpa [hc] using ih

/-- C10: before any other normalization, `clean_signal_line` replaces
every lowercase `i` in the stripped raw line with the field separator
`;` — the cleanup's output is unchanged when the replacement is applied
up front, and no `i` survives the replacement — so an otherwise-valid
line containing an `i`, such as one whose expiry reads `5 min`, gains
extra separators that split its fields before validation (the example
cleans to `03:40;EURAUD;CALL;5m;n`, five fields instead of four). -/
theorem c10_i_becomes_separator_first (line : List Char) :
    clean_signal_line line = cleanRest (replaceI (pyStrip line)) ∧
    clean_signal_line (replaceI line) = clean_signal_line line ∧
    (replaceI line).count 'i' = 0 ∧
    clean_signal_line "03:40;EURAUD;CALL;5 min".data =
      "03:40;EURAUD;CALL;5m;n".data ∧
    (splitSemi (clean_signal_line "03:40;EURAUD;CALL;5 min".data)).length
      = 5 := by
  refine ⟨rfl, ?_, count_i_replaceI line, by decide, by decide⟩
  unfold clean_signal_line
  rw [pyStrip_replaceI, replaceI_replaceI]

theorem c10_i_becomes_separator_first_witness :
    clean_signal_line (replaceI "03:40;EURAUD;CALL;5 min".data) =
      clean_signal_line "03:40;EURAUD;CALL;5 min".data ∧
    (replaceI "03:40;EURAUD;CALL;5 min".data).count 'i' = 0 :=
  ⟨(c10_i_becomes_separator_first "03:40;EURAUD;CALL;5 min".data).2.1,
   (c10_i_becomes_separator_first "03:40;EURAUD;CALL;5 min".data).2.2.1⟩

end BreakingBad
